import Mathlib

/-!
Verification of the 4.5M-S quote committer.

This file gives a shallow embedding of the repository's data model and
operations and proves (or refutes) the spec's claims about them.

Embedded code:
* `quotes-database.js` (class `QuotesDatabase`): round-robin quote selection
  with a used-index set, category filtering, and `addQuote`.
* `quotes.js` (module-level `quotes` array and helpers).
* `gitManager.js` (`GitManager.commitQuote` / `commit`): commit-message
  construction and the non-fatal treatment of push failures.
* `index.js` (`QuoteCommitterSystem.commitRandomQuote`): the retry/backoff
  policy on failed cycles.
* `quote-committer.js` (`AutonomousQuoteCommitter`): startup configuration
  validation, the statistics counters, the failure-rate self-throttle, and
  the `setInterval`-driven commit loop.

Conventions: JS numbers used as counters are modelled as `Nat`; the one
fractional quantity (the configured commit interval, e.g. 4.5 ms) is
modelled as `ℚ` with exact comparison.  Fallible operations return
`Option`/`Except`.  External effects (git, filesystem, network, the random
generator) enter as explicit parameters recording whether each call
succeeded, so every definition is executable.
-/

set_option maxRecDepth 8000

/-- A quote record `{ text, author, category }` as stored in both quote
databases. -/
structure Quote where
  text : String
  author : String
  category : String
deriving DecidableEq, Repr

/-- State of the `QuotesDatabase` class from `quotes-database.js`: the
quote list `this.quotes`, the cursor `this.currentIndex`, and the JS `Set`
`this.usedIndices`.  The set is modelled as a duplicate-free list; the
program only ever observes membership (`has`), cardinality (`size`), and
clearing, so the representation order is irrelevant. -/
structure QuotesDatabase where
  quotes : List Quote
  currentIndex : Nat
  usedIndices : List Nat
deriving DecidableEq, Repr

/-- The static quote list hard-coded in the `QuotesDatabase` constructor
(`quotes-database.js`). -/
def QuotesDatabase.initialQuotes : List Quote := [
  ⟨"Technology is best when it brings people together.", "Matt Mullenweg", "technology"⟩,
  ⟨"The real problem is not whether machines think but whether men do.", "B.F. Skinner", "artificial-intelligence"⟩,
  ⟨"Innovation distinguishes between a leader and a follower.", "Steve Jobs", "innovation"⟩,
  ⟨"The advance of technology is based on making it fit in so that you don\x27t really even notice it, so it\x27s part of everyday life.", "Bill Gates", "technology"⟩,
  ⟨"Any sufficiently advanced technology is indistinguishable from magic.", "Arthur C. Clarke", "technology"⟩,
  ⟨"The Web as I envisaged it, we have not seen it yet. The future is still so much bigger than the past.", "Tim Berners-Lee", "web-technology"⟩,
  ⟨"Software is eating the world.", "Marc Andreessen", "software"⟩,
  ⟨"Code is poetry.", "WordPress", "programming"⟩,
  ⟨"The best way to predict the future is to invent it.", "Alan Kay", "innovation"⟩,
  ⟨"Programming isn\x27t about what you know; it\x27s about what you can figure out.", "Chris Pine", "programming"⟩,
  ⟨"Move fast and break things.", "Mark Zuckerberg", "development"⟩,
  ⟨"I think it\x27s very important to have a feedback loop, where you\x27re constantly thinking about what you\x27ve done and how you could be doing it better.", "Elon Musk", "innovation"⟩,
  ⟨"The Internet is becoming the town square for the global village of tomorrow.", "Bill Gates", "internet"⟩,
  ⟨"Your most unhappy customers are your greatest source of learning.", "Bill Gates", "business-technology"⟩,
  ⟨"Technology is nothing. What\x27s important is that you have a faith in people, that they\x27re basically good and smart, and if you give them tools, they\x27ll do wonderful things with them.", "Steve Jobs", "technology"⟩,
  ⟨"Talk is cheap. Show me the code.", "Linus Torvalds", "programming"⟩,
  ⟨"Any fool can write code that a computer can understand. Good programmers write code that humans can understand.", "Martin Fowler", "programming"⟩,
  ⟨"First, solve the problem. Then, write the code.", "John Johnson", "programming"⟩,
  ⟨"The only way to learn a new programming language is by writing programs in it.", "Dennis Ritchie", "programming"⟩,
  ⟨"Simplicity is the ultimate sophistication.", "Leonardo da Vinci", "design"⟩,
  ⟨"Data is the new oil.", "Clive Humby", "data"⟩,
  ⟨"Without data, you\x27re just another person with an opinion.", "W. Edwards Deming", "data"⟩,
  ⟨"Machine intelligence is the last invention that humanity will ever need to make.", "Nick Bostrom", "artificial-intelligence"⟩,
  ⟨"AI is likely to be either the best or worst thing to happen to humanity.", "Stephen Hawking", "artificial-intelligence"⟩,
  ⟨"The question of whether a computer can think is no more interesting than the question of whether a submarine can swim.", "Edsger Dijkstra", "artificial-intelligence"⟩,
  ⟨"Digital transformation is not about technology, it\x27s about strategy and new ways of thinking.", "Joe Weinman", "digital-transformation"⟩,
  ⟨"The digital revolution is far more significant than the invention of writing or even of printing.", "Douglas Engelbart", "digital-transformation"⟩,
  ⟨"We are not going into the information age, we are in the information age.", "Harlan Cleveland", "information-age"⟩,
  ⟨"The factory of the future will have only two employees, a man and a dog. The man will be there to feed the dog. The dog will be there to keep the man from touching the equipment.", "Warren Bennis", "automation"⟩,
  ⟨"Computers are incredibly fast, accurate, and stupid. Human beings are incredibly slow, inaccurate, and brilliant.", "Albert Einstein", "computing"⟩
]

/-- A `QuotesDatabase` state as the constructor leaves it, for a given
quote list: cursor `0` and an empty used-set. -/
def mkDatabase (qs : List Quote) : QuotesDatabase :=
  { quotes := qs, currentIndex := 0, usedIndices := [] }

/-- The state produced by `new QuotesDatabase()`. -/
def QuotesDatabase.new : QuotesDatabase := mkDatabase QuotesDatabase.initialQuotes

/-- The `while (this.usedIndices.has(this.currentIndex))` loop of
`getNextQuote`: starting at index `i`, repeatedly step to `(i + 1) % len`
until an index outside `used` is found.  The JS loop has no bound; here it
carries explicit fuel, and `none` means the loop did not exit within
`fuel` iterations.  `getNextQuote` runs it with fuel `len`, which is
proved sufficient for every state the program can reach
(`findUnused_success`, `exists_unused_index`). -/
def findUnused (len : Nat) (used : List Nat) : Nat → Nat → Option Nat
  | 0, _ => none
  | fuel + 1, i => if i ∈ used then findUnused len used fuel ((i + 1) % len) else some i

/-- `QuotesDatabase.getNextQuote` (`quotes-database.js` lines 329–346).
If the used-set has reached the list length it is cleared and the cursor
reset; the cursor then advances past used indices, the found quote is
returned, its index marked used, and the cursor moved one step further.
Returns `none` exactly when the unbounded JS `while` loop would not
terminate within `quotes.length` steps or the final array access is out
of bounds; neither happens on reachable states. -/
def QuotesDatabase.getNextQuote (db : QuotesDatabase) : Option (Quote × QuotesDatabase) :=
  let db1 := if db.usedIndices.length ≥ db.quotes.length then
    { db with usedIndices := [], currentIndex := 0 } else db
  match findUnused db1.quotes.length db1.usedIndices db1.quotes.length db1.currentIndex with
  | none => none
  | some i =>
    match db1.quotes[i]? with
    | none => none
    | some q =>
      some (q, { db1 with usedIndices := i :: db1.usedIndices,
                          currentIndex := (i + 1) % db1.quotes.length })

/-- `QuotesDatabase.getRandomQuote`: `this.quotes[Math.floor(Math.random()
* length)]`; the random draw enters as the chosen index. -/
def QuotesDatabase.getRandomQuote (db : QuotesDatabase) (randomIndex : Nat) : Option Quote :=
  db.quotes[randomIndex]?

/-- `QuotesDatabase.getQuotesByCategory`: `this.quotes.filter(quote =>
quote.category === category)`. -/
def QuotesDatabase.getQuotesByCategory (db : QuotesDatabase) (category : String) : List Quote :=
  db.quotes.filter (fun q => q.category == category)

/-- `QuotesDatabase.getCategories`: `[...new Set(this.quotes.map(q =>
q.category))]` — distinct categories in first-occurrence order. -/
def QuotesDatabase.getCategories (db : QuotesDatabase) : List String :=
  (db.quotes.map (fun q => q.category)).eraseDups

/-- `QuotesDatabase.getTotalCount`. -/
def QuotesDatabase.getTotalCount (db : QuotesDatabase) : Nat :=
  db.quotes.length

/-- `QuotesDatabase.formatQuote`. -/
def QuotesDatabase.formatQuote (_db : QuotesDatabase) (q : Quote) : String :=
  q.text ++ "\n- " ++ q.author

/-- `QuotesDatabase.addQuote` (`quotes-database.js` lines 392–399):
`this.quotes.push({ text, author, category })`.  In the source `category`
defaults to the string `general` when omitted. -/
def QuotesDatabase.addQuote (db : QuotesDatabase) (text author category : String) :
    QuotesDatabase :=
  { db with quotes := db.quotes ++ [⟨text, author, category⟩] }

/-- `n` successive `getNextQuote()` calls, collecting the returned quotes
in order together with the final database state. -/
def runNext (db : QuotesDatabase) : Nat → Option (List Quote × QuotesDatabase)
  | 0 => some ([], db)
  | n + 1 =>
    (db.getNextQuote).bind fun p =>
      (runNext p.2 n).map fun r => (p.1 :: r.1, r.2)

/-- The module-level `quotes` array of `quotes.js`. -/
def quotes : List Quote := [
  ⟨"Technology is best when it brings people together.", "Matt Mullenweg", "technology"⟩,
  ⟨"The advance of technology is based on making it fit in so that you don\x27t really even notice it, so it\x27s part of everyday life.", "Bill Gates", "technology"⟩,
  ⟨"Innovation distinguishes between a leader and a follower.", "Steve Jobs", "innovation"⟩,
  ⟨"The real problem is not whether machines think but whether men do.", "B.F. Skinner", "philosophy"⟩,
  ⟨"Technology is nothing. What\x27s important is that you have a faith in people, that they\x27re basically good and smart, and if you give them tools, they\x27ll do wonderful things with them.", "Steve Jobs", "technology"⟩,
  ⟨"The most important thing in communication is hearing what isn\x27t said.", "Peter Drucker", "philosophy"⟩,
  ⟨"It has become appallingly obvious that our technology has exceeded our humanity.", "Albert Einstein", "technology"⟩,
  ⟨"The only way to make sense out of change is to plunge into it, move with it, and join the dance.", "Alan Watts", "philosophy"⟩,
  ⟨"Innovation is the specific instrument of entrepreneurship. The act that endows resources with a new capacity to create wealth.", "Peter Drucker", "innovation"⟩,
  ⟨"The best way to predict the future is to invent it.", "Alan Kay", "innovation"⟩,
  ⟨"Technology is a word that describes something that doesn\x27t work yet.", "Douglas Adams", "technology"⟩,
  ⟨"Any sufficiently advanced technology is indistinguishable from magic.", "Arthur C. Clarke", "technology"⟩,
  ⟨"The science of today is the technology of tomorrow.", "Edward Teller", "innovation"⟩,
  ⟨"We are stuck with technology when what we really want is just stuff that works.", "Douglas Adams", "technology"⟩,
  ⟨"The human spirit must prevail over technology.", "Albert Einstein", "philosophy"⟩,
  ⟨"All of our technology is completely unnecessary to a happy life.", "Tom Hodgkinson", "philosophy"⟩,
  ⟨"The art challenges the technology, and the technology inspires the art.", "John Lasseter", "innovation"⟩,
  ⟨"Just because something doesn\x27t do what you planned it to do doesn\x27t mean it\x27s useless.", "Thomas Edison", "innovation"⟩,
  ⟨"The telephone has too many shortcomings to be seriously considered as a means of communication.", "Western Union memo (1876)", "technology"⟩,
  ⟨"I think that\x27s the single best piece of advice: constantly think about how you could be doing things better and questioning yourself.", "Elon Musk", "innovation"⟩,
  ⟨"The greatest enemy of knowledge is not ignorance, it is the illusion of knowledge.", "Stephen Hawking", "philosophy"⟩,
  ⟨"Computing is not about computers any more. It is about living.", "Nicholas Negroponte", "technology"⟩,
  ⟨"The Internet is becoming the town square for the global village of tomorrow.", "Bill Gates", "technology"⟩,
  ⟨"Your most unhappy customers are your greatest source of learning.", "Bill Gates", "innovation"⟩,
  ⟨"The empires of the future are the empires of the mind.", "Winston Churchill", "philosophy"⟩,
  ⟨"Simplicity is the ultimate sophistication.", "Leonardo da Vinci", "philosophy"⟩,
  ⟨"It is not the strongest of the species that survives, nor the most intelligent, but the one most responsive to change.", "Charles Darwin", "philosophy"⟩,
  ⟨"The future belongs to organizations that can turn today\x27s information into tomorrow\x27s insight.", "Morris Chang", "innovation"⟩,
  ⟨"Programs must be written for people to read, and only incidentally for machines to execute.", "Harold Abelson", "technology"⟩,
  ⟨"The best minds are not in government. If any were, business would steal them away.", "Ronald Reagan", "philosophy"⟩
]

/-- `getQuotesByCategory` of `quotes.js` (lines 173–175):
`quotes.filter(quote => quote.category === category)`. -/
def getQuotesByCategory (category : String) : List Quote :=
  quotes.filter (fun q => q.category == category)

/-- `getCategories` of `quotes.js`. -/
def getCategories : List String :=
  (quotes.map (fun q => q.category)).eraseDups

/-- `getQuoteCount` of `quotes.js`. -/
def getQuoteCount : Nat := quotes.length

/-- `formatQuote` of `quotes.js`. -/
def formatQuote (q : Quote) : String :=
  q.text ++ "\n- " ++ q.author

/-- The quote file content written by `GitManager.commitQuote`:
`` `${quote.text}\n- ${quote.author}\n` ``. -/
def GitManager.quoteContent (q : Quote) : String :=
  q.text ++ "\n- " ++ q.author ++ "\n"

/-- The commit message built in `GitManager.commitQuote`
(`gitManager.js` line 614):
`` `"${quote.text.substring(0, 50)}..." - ${quote.author} [${quote.category}]` ``.
Note the literal double quotes around the truncated text.  JS
`substring(0, 50)` takes the first 50 UTF-16 units; `String.take 50`
agrees on the ASCII inputs considered here. -/
def GitManager.commitMessageBody (q : Quote) : String :=
  "\"" ++ q.text.take 50 ++ "...\" - " ++ q.author ++ " [" ++ q.category ++ "]"

/-- `GitManager.commit` (`gitManager.js` lines 549–564) prepends the
configured message pfx: `` `${config.git.commitMessagePrefix} ${message}` ``.
The default pfx is `Daily Quote Commit:`. -/
def GitManager.fullCommitMessage (pfx message : String) : String :=
  pfx ++ " " ++ message

/-- Control flow of `GitManager.commitQuote` (`gitManager.js` lines
598–642) with the outcome of each external call passed in.  A write/stage
failure or a commit failure throws (`Except.error`); the push is attempted
inside its own `try`/`catch`, so a push failure is logged and swallowed —
the function still returns the commit hash.  The returned pair is
(commit hash, full commit message recorded by git). -/
def GitManager.commitQuote (q : Quote) (pfx : String)
    (stageOk commitOk pushOk : Bool) (hash : String) : Except String (String × String) :=
  if stageOk = false then Except.error "staging failed"
  else if commitOk = false then Except.error "commit failed"
  else
    -- push attempted here; on failure only a warning is logged
    let _ := pushOk
    Except.ok (hash, GitManager.fullCommitMessage pfx (GitManager.commitMessageBody q))

/-- `this.maxRetryAttempts` of `QuoteCommitterSystem` (`index.js`). -/
def maxRetryAttempts : Nat := 3

/-- The `catch` block of `QuoteCommitterSystem.commitRandomQuote`
(`index.js` lines 371–393): increment `retryAttempts`; if it is still
within `maxRetryAttempts`, schedule a retry after
`Math.min(1000 * 2 ** retryAttempts, 60000)` milliseconds, otherwise give
up on this cycle and reset `retryAttempts` to 0.  Returns the new
`retryAttempts` value and the scheduled retry delay (`none` = no retry). -/
def retryStep (retryAttempts : Nat) : Nat × Option Nat :=
  let r := retryAttempts + 1
  if r ≤ maxRetryAttempts then (r, some (min (1000 * 2 ^ r) 60000))
  else (0, none)

/-- One cycle of `QuoteCommitterSystem.commitRandomQuote` (`index.js`
lines 351–394) as a function of the current `retryAttempts` and the result
of `gitManager.commitQuote`: on success `retryAttempts` is reset to 0 and
no retry is scheduled; on failure the `catch` block (`retryStep`) runs. -/
def commitRandomQuote (retryAttempts : Nat) (result : Except String (String × String)) :
    Nat × Option Nat :=
  match result with
  | Except.ok _ => (0, none)
  | Except.error _ => retryStep retryAttempts

/-- The `this.stats` counters of `AutonomousQuoteCommitter`
(`quote-committer.js`).  `totalCommits` and `successfulCommits` are both
incremented only in the success path of `commitNewQuote`; `failedCommits`
only in its `catch` block. -/
structure CommitterStats where
  totalCommits : Nat
  successfulCommits : Nat
  failedCommits : Nat
deriving DecidableEq, Repr

/-- The mutable state of an `AutonomousQuoteCommitter` instance that the
commit loop touches: the statistics, `commitCount`, the configured
`maxCycles`, the running flag, and whether the `setInterval` timer is
still installed (`intervalId !== null`). -/
structure CommitterState where
  stats : CommitterStats
  commitCount : Nat
  maxCycles : Nat
  isRunning : Bool
  hasInterval : Bool
deriving DecidableEq, Repr

/-- The JS comparison `failed / total > 0.5` from the self-throttle check
(`quote-committer.js` line 218), with the float division replaced by the
exact comparison `total < 2 * failed`.  The two agree for every counter
value below `2^52`; JS additionally yields `Infinity > 0.5` (true) when
`total = 0` and `failed > 0`, and `NaN > 0.5` (false) for `0 / 0`. -/
def failureRateExceeded (failed total : Nat) : Bool :=
  if total = 0 then failed ≠ 0 else total < 2 * failed

/-- `AutonomousQuoteCommitter.stop` (`quote-committer.js` lines 284–314):
a no-op when not running; otherwise clears the interval timer and the
running flag (the final-push and logging effects are external). -/
def AutonomousQuoteCommitter.stop (s : CommitterState) : CommitterState :=
  if s.isRunning = false then s
  else { s with isRunning := false, hasInterval := false }

/-- `AutonomousQuoteCommitter.commitNewQuote` (`quote-committer.js` lines
163–223) as a function of the current state and the outcomes of the
external calls.  `gitOk` is whether the write/stage/commit sequence
succeeded; `pushOk` is the outcome of the optional batched push, which is
wrapped in its own `try`/`catch` and affects only logging.  The `catch`
block counts the failure and runs the self-throttle check
`failedCommits > 10 && failedCommits / totalCommits > 0.5`, stopping the
committer when it fires. -/
def AutonomousQuoteCommitter.commitNewQuote (s : CommitterState) (gitOk pushOk : Bool) :
    CommitterState :=
  if gitOk then
    let s1 := { s with
      commitCount := s.commitCount + 1,
      stats := { s.stats with
        totalCommits := s.stats.totalCommits + 1,
        successfulCommits := s.stats.successfulCommits + 1 } }
    -- auto-push every 10th commit: failure is caught and only logged
    let _ := pushOk
    s1
  else
    let f := s.stats.failedCommits + 1
    let s1 := { s with stats := { s.stats with failedCommits := f } }
    if 10 < f ∧ failureRateExceeded f s1.stats.totalCommits = true then
      AutonomousQuoteCommitter.stop s1
    else s1

/-- The `setInterval` callback installed by `AutonomousQuoteCommitter.start`
(`quote-committer.js` lines 259–267): run `commitNewQuote`, then stop once
`commitCount >= maxCycles`. -/
def AutonomousQuoteCommitter.intervalTick (s : CommitterState) (gitOk pushOk : Bool) :
    CommitterState :=
  let s1 := AutonomousQuoteCommitter.commitNewQuote s gitOk pushOk
  if s1.maxCycles ≤ s1.commitCount then AutonomousQuoteCommitter.stop s1 else s1

/-- The event loop fires the interval callback only while the timer is
installed; once `stop` has cleared it, no further cycle runs. -/
def AutonomousQuoteCommitter.tickIfScheduled (s : CommitterState) (gitOk pushOk : Bool) :
    CommitterState :=
  if s.hasInterval then AutonomousQuoteCommitter.intervalTick s gitOk pushOk else s

/-- `parseFloat(process.env.COMMIT_INTERVAL) || 4.5`
(`quote-committer.js` line 143): an unset or unparsable variable (`NaN`)
and the falsy value `0` both fall back to the default `4.5`. -/
def parseCommitInterval (env : Option ℚ) : ℚ :=
  match env with
  | some v => if v = 0 then 4.5 else v
  | none => 4.5

/-- The interval validation at the end of
`AutonomousQuoteCommitter.setupConfiguration` (`quote-committer.js` lines
152–155): `if (this.commitInterval < 1) { ... process.exit(1); }`.
`Except.error` models the `process.exit(1)` — startup fails. -/
def validateInterval (v : ℚ) : Except Unit ℚ :=
  if v < 1 then Except.error () else Except.ok v

/-- The non-development-mode configuration path of `setupConfiguration`:
parse the environment value, then validate it. -/
def setupCommitInterval (env : Option ℚ) : Except Unit ℚ :=
  validateInterval (parseCommitInterval env)

/-- Start time of the `k`-th `setInterval` invocation of `commitNewQuote`
(`quote-committer.js` lines 259–267): the timer fires every
`commitInterval` milliseconds, at `(k+1)·interval`, regardless of whether
earlier invocations have completed — the callback calls the async
`commitNewQuote()` without awaiting it. -/
def invocationStart (interval k : Nat) : Nat := (k + 1) * interval

/-- Completion time of the `k`-th invocation: its start plus the duration
`d k` of its awaited git operations, which is determined by the external
environment. -/
def invocationEnd (interval : Nat) (d : Nat → Nat) (k : Nat) : Nat :=
  invocationStart interval k + d k

/-- Single-flight property: every invocation finishes no later than the
start of any later invocation, i.e. at most one cycle is ever executing. -/
def SingleFlight (interval : Nat) (d : Nat → Nat) : Prop :=
  ∀ j k : Nat, j < k → invocationEnd interval d j ≤ invocationStart interval k

/-- Structural invariant of a `QuotesDatabase` state: a non-empty quote
list, an in-range cursor, and a duplicate-free used-set of in-range
indices. -/
def QuotesDatabase.Inv (db : QuotesDatabase) : Prop :=
  db.quotes ≠ [] ∧ db.currentIndex < db.quotes.length ∧
    db.usedIndices.Nodup ∧ ∀ i ∈ db.usedIndices, i < db.quotes.length

/-- The states of the quote database the program can reach: the
constructor state, closed under `getNextQuote`. -/
inductive QuotesDatabase.Reachable : QuotesDatabase → Prop
  | start : QuotesDatabase.Reachable QuotesDatabase.new
  | step {db : QuotesDatabase} {q : Quote} {db' : QuotesDatabase} :
      QuotesDatabase.Reachable db → db.getNextQuote = some (q, db') →
      QuotesDatabase.Reachable db'

/-- The used-set after the reset guard at the top of `getNextQuote`:
cleared when its size has reached the list length, unchanged otherwise. -/
def QuotesDatabase.resetUsed (db : QuotesDatabase) : List Nat :=
  if db.usedIndices.length ≥ db.quotes.length then [] else db.usedIndices


/-! ## Claim C3 — retry backoff -/

/-- C3 counterexample: the claim predicts a retry delay
`min(upperBound, floor * 2^consecutiveFailures)` for *every* failed
cycle, but on the fourth consecutive failure (`retryAttempts` reaching
4 > `maxRetryAttempts` = 3) the code schedules no retry at all and resets
the counter to 0. -/
theorem retryStep_fourth_failure_no_retry :
    (retryStep 3).2 ≠ some (min (1000 * 2 ^ (3 + 1)) 60000) ∧ retryStep 3 = (0, none) := by
  constructor
  · decide
  · decide

/-- C3 (amended): while `consecutiveFailures` stays within
`maxRetryAttempts`, each failed cycle schedules a retry after
`min(1000 * 2^consecutiveFailures, 60000)` ms, a bound that strictly
increases with consecutive failures over the attempted range (the cap is
never reached, since `1000 * 2^3 < 60000`); once `consecutiveFailures`
would exceed `maxRetryAttempts`, no retry is scheduled and the counter
resets to 0; any successful cycle resets `consecutiveFailures` to 0, so
the next failure restarts the backoff at `min(1000 * 2^1, 60000)`. -/
theorem retry_backoff_policy :
    (∀ r : Nat, r + 1 ≤ maxRetryAttempts →
      retryStep r = (r + 1, some (min (1000 * 2 ^ (r + 1)) 60000))) ∧
    (∀ r : Nat, maxRetryAttempts < r + 1 → retryStep r = (0, none)) ∧
    (∀ r : Nat, r + 2 ≤ maxRetryAttempts →
      min (1000 * 2 ^ (r + 1)) 60000 < min (1000 * 2 ^ (r + 2)) 60000) ∧
    (∀ (r : Nat) (x : String × String), commitRandomQuote r (Except.ok x) = (0, none)) := by
  refine ⟨?_, ?_, ?_, ?_⟩
  · intro r hr
    simp only [retryStep, if_pos hr]
  · intro r hr
    simp only [maxRetryAttempts] at hr
    simp only [retryStep, maxRetryAttempts]
    rw [if_neg (by omega)]
  · intro r hr
    have hr1 : r = 0 ∨ r = 1 := by
      simp only [maxRetryAttempts] at hr; omega
    rcases hr1 with rfl | rfl <;> decide
  · intro r x
    rfl

/-- C3 witness: the backoff policy at the first two consecutive failures
and after a success. -/
theorem retry_backoff_policy_witness :
    retryStep 0 = (1, some (min (1000 * 2 ^ 1) 60000)) ∧
    retryStep 3 = (0, none) ∧
    min (1000 * 2 ^ 1) 60000 < min (1000 * 2 ^ 2) 60000 ∧
    commitRandomQuote 2 (Except.ok ("h", "m")) = (0, none) :=
  ⟨retry_backoff_policy.1 0 (by decide),
   retry_backoff_policy.2.1 3 (by decide),
   retry_backoff_policy.2.2.1 0 (by decide),
   retry_backoff_policy.2.2.2 2 ("h", "m")⟩

/-! ## Claim C4 — push failure is non-fatal -/

/-- C4: when write/stage and commit succeed but the push fails, the cycle
is indistinguishable from one whose push succeeded: `commitQuote` still
returns the commit hash (the commit is not undone), `commitRandomQuote`
resets `retryAttempts` to 0 and schedules no retry; likewise in
`AutonomousQuoteCommitter.commitNewQuote` a push failure leaves the
failure counters untouched, counts the cycle as a success, and does not
stop the loop. -/
theorem push_failure_non_fatal :
    (∀ (q : Quote) (pfx hash : String) (r : Nat),
      GitManager.commitQuote q pfx true true false hash =
        GitManager.commitQuote q pfx true true true hash ∧
      GitManager.commitQuote q pfx true true false hash =
        Except.ok (hash, GitManager.fullCommitMessage pfx (GitManager.commitMessageBody q)) ∧
      commitRandomQuote r (GitManager.commitQuote q pfx true true false hash) = (0, none)) ∧
    (∀ (s : CommitterState) (pushOk : Bool),
      AutonomousQuoteCommitter.commitNewQuote s true pushOk =
        AutonomousQuoteCommitter.commitNewQuote s true true ∧
      (AutonomousQuoteCommitter.commitNewQuote s true pushOk).stats.failedCommits =
        s.stats.failedCommits ∧
      (AutonomousQuoteCommitter.commitNewQuote s true pushOk).stats.successfulCommits =
        s.stats.successfulCommits + 1 ∧
      (AutonomousQuoteCommitter.commitNewQuote s true pushOk).isRunning = s.isRunning) := by
  constructor
  · intro q pfx hash r
    refine ⟨rfl, rfl, rfl⟩
  · intro s pushOk
    refine ⟨rfl, rfl, rfl, rfl⟩

/-! ## Claim C5 — commit message format -/

/-- C5 counterexample: committing `{text:"Test", author:"X",
category:"y"}` with message pfx `Quote:` does **not** produce
`Quote: Test... - X [y]` — `GitManager.commitQuote` wraps the truncated
text in literal double quotes. -/
theorem commit_message_not_unquoted :
    GitManager.fullCommitMessage "Quote:"
      (GitManager.commitMessageBody ⟨"Test", "X", "y"⟩) ≠ "Quote: Test... - X [y]" := by
  decide

/-- C5 (amended): for every committed quote the message recorded by git is
`<pfx> "<first-50-characters-of-quote-text>..." - <author> [<category>]`
— the truncated text sits inside literal double quotes; in particular the
example quote with pfx `Quote:` yields `Quote: "Test..." - X [y]`. -/
theorem commit_message_format :
    (∀ (pfx : String) (q : Quote),
      GitManager.fullCommitMessage pfx (GitManager.commitMessageBody q) =
        pfx ++ " " ++ "\"" ++ q.text.take 50 ++ "...\" - " ++ q.author ++ " [" ++
          q.category ++ "]") ∧
    GitManager.fullCommitMessage "Quote:" (GitManager.commitMessageBody ⟨"Test", "X", "y"⟩) =
      "Quote: \"Test...\" - X [y]" := by
  constructor
  · intro pfx q
    simp only [GitManager.fullCommitMessage, GitManager.commitMessageBody, String.append_assoc]
  · rfl

/-! ## Claim C6 — sub-millisecond commit interval -/

/-- C6 counterexample: a configured interval of 0.5 ms is strictly
between 0 and 1, yet startup does not coerce it to 1 ms — the validation
branch runs `process.exit(1)` and startup fails. -/
theorem half_millisecond_interval_exits :
    (0 < (1 / 2 : ℚ) ∧ (1 / 2 : ℚ) < 1) ∧
      setupCommitInterval (some (1 / 2)) = Except.error () ∧
      setupCommitInterval (some (1 / 2)) ≠ Except.ok 1 := by
  have h : setupCommitInterval (some (1 / 2)) = Except.error () := by
    norm_num [setupCommitInterval, parseCommitInterval, validateInterval]
  refine ⟨⟨by norm_num, by norm_num⟩, h, ?_⟩
  rw [h]
  simp

/-- C6 (amended): every configured commit interval strictly between 0 and
1 millisecond makes startup fail (`process.exit(1)`); no coercion takes
place.  Intervals of at least 1 ms are accepted unchanged. -/
theorem sub_millisecond_interval_fails_startup :
    (∀ v : ℚ, 0 < v → v < 1 → setupCommitInterval (some v) = Except.error ()) ∧
    (∀ v : ℚ, 1 ≤ v → setupCommitInterval (some v) = Except.ok v) := by
  constructor
  · intro v hv0 hv1
    simp [setupCommitInterval, parseCommitInterval, validateInterval, hv0.ne', hv1]
  · intro v hv
    have hne : v ≠ 0 := by intro h; rw [h] at hv; norm_num at hv
    simp [setupCommitInterval, parseCommitInterval, validateInterval, hne, not_lt.mpr hv]

/-- C6 witness: the amended claim at the concrete intervals 0.5 ms and
2 ms. -/
theorem sub_millisecond_interval_witness :
    setupCommitInterval (some (1 / 2)) = Except.error () ∧
    setupCommitInterval (some 2) = Except.ok 2 :=
  ⟨sub_millisecond_interval_fails_startup.1 (1 / 2) (by norm_num) (by norm_num),
   sub_millisecond_interval_fails_startup.2 2 (by norm_num)⟩

/-! ## Claim C9 — single-flight scheduling -/

/-- C9 counterexample: with a 5 ms interval and git operations taking
10 ms, invocation 0 (started at 5 ms, finishing at 15 ms) is still in
flight when the timer starts invocation 1 at 10 ms — `setInterval` fires
on schedule without awaiting the previous async `commitNewQuote`. -/
theorem interval_overlap_counterexample :
    ¬ SingleFlight 5 (fun _ => 10) := by
  intro h
  have h01 := h 0 1 (by omega)
  simp only [invocationEnd, invocationStart] at h01
  omega

/-- C9 (amended): the scheduler guarantees at most one executing cycle
only under the assumption that every cycle completes within the commit
interval; under that assumption invocation `j` ends by `(j+2)·interval`,
which is no later than the start `(k+1)·interval` of any invocation
`k > j`. -/
theorem single_flight_iff_cycles_fit_interval
    (interval : Nat) (d : Nat → Nat) (h : ∀ k, d k ≤ interval) :
    SingleFlight interval d := by
  intro j k hjk
  simp only [invocationEnd, invocationStart]
  calc (j + 1) * interval + d j ≤ (j + 1) * interval + interval := by
        exact Nat.add_le_add_left (h j) _
    _ = (j + 2) * interval := by ring
    _ ≤ (k + 1) * interval := Nat.mul_le_mul_right _ (by omega)

/-- C9 witness: with every cycle bounded by the interval (5 ms each),
invocation 0 completes before invocation 1 starts. -/
theorem single_flight_witness :
    invocationEnd 5 (fun _ => 5) 0 ≤ invocationStart 5 1 :=
  single_flight_iff_cycles_fit_interval 5 (fun _ => 5) (fun _ => le_refl 5) 0 1 (by omega)

/-! ## Claim C2 — failure-rate self-throttle -/

/-- In `AutonomousQuoteCommitter`, `totalCommits` and `successfulCommits`
are incremented together and nowhere else, so they stay equal along every
run of the commit loop. -/
theorem totalCommits_eq_successfulCommits_preserved
    (s : CommitterState) (gitOk pushOk : Bool)
    (h : s.stats.totalCommits = s.stats.successfulCommits) :
    (AutonomousQuoteCommitter.tickIfScheduled s gitOk pushOk).stats.totalCommits =
      (AutonomousQuoteCommitter.tickIfScheduled s gitOk pushOk).stats.successfulCommits := by
  obtain ⟨⟨t, su, f⟩, cc, mc, run, hi⟩ := s
  replace h : t = su := h
  subst h
  simp only [AutonomousQuoteCommitter.tickIfScheduled, AutonomousQuoteCommitter.intervalTick,
    AutonomousQuoteCommitter.commitNewQuote, AutonomousQuoteCommitter.stop]
  repeat (first | rfl | split)

/-- C2: whenever a cycle attempt fails and afterwards the failure count
exceeds 10 while `failureCount / totalAttempts > 0.5` — stated exactly,
`totalAttempts` being all attempts, successful or failed, so the ratio
condition is `totalAttempts < 2 * failureCount` — the commit loop stops:
the running flag is cleared and the interval timer cancelled, even though
`maxCycles` has not been reached.  The hypothesis
`totalCommits = successfulCommits` is an invariant of every run
(`totalCommits_eq_successfulCommits_preserved`); the counters only change
at the end of an attempt, and the throttle condition can only become true
at a failed attempt, which is exactly where the code checks it. -/
theorem failure_rate_throttle_stops
    (s : CommitterState) (pushOk : Bool)
    (hinv : s.stats.totalCommits = s.stats.successfulCommits)
    (hrun : s.isRunning = true)
    (hmax : s.commitCount < s.maxCycles)
    (hfailures : 10 < s.stats.failedCommits + 1)
    (hoverhalf : s.stats.successfulCommits + (s.stats.failedCommits + 1) <
      2 * (s.stats.failedCommits + 1)) :
    (AutonomousQuoteCommitter.intervalTick s false pushOk).isRunning = false ∧
    (AutonomousQuoteCommitter.intervalTick s false pushOk).hasInterval = false ∧
    ∀ g p : Bool,
      AutonomousQuoteCommitter.tickIfScheduled
        (AutonomousQuoteCommitter.intervalTick s false pushOk) g p =
        AutonomousQuoteCommitter.intervalTick s false pushOk := by
  have hcond : (10 < s.stats.failedCommits + 1 ∧
      failureRateExceeded (s.stats.failedCommits + 1) s.stats.totalCommits = true) := by
    refine ⟨hfailures, ?_⟩
    simp only [failureRateExceeded, hinv]
    split
    · simp
    · simp only [decide_eq_true_eq]
      omega
  have hstep : AutonomousQuoteCommitter.intervalTick s false pushOk =
      { s with stats := { s.stats with failedCommits := s.stats.failedCommits + 1 },
               isRunning := false, hasInterval := false } := by
    simp only [AutonomousQuoteCommitter.intervalTick, AutonomousQuoteCommitter.commitNewQuote,
      Bool.false_eq_true, if_false, AutonomousQuoteCommitter.stop]
    rw [if_pos hcond]
    simp only [hrun]
    simp only [Bool.true_eq_false, if_false]
    rw [if_neg (by simpa using Nat.not_le.mpr hmax)]
  rw [hstep]
  refine ⟨rfl, rfl, ?_⟩
  intro g p
  simp [AutonomousQuoteCommitter.tickIfScheduled]

/-- C2 witness: a running loop with 5 successes and 10 failures whose
11th failure trips the throttle (11 > 10 and 11/16 > 0.5) and stops the
committer, with `maxCycles` (1000) far from reached. -/
theorem failure_rate_throttle_witness :
    (AutonomousQuoteCommitter.intervalTick
        ⟨⟨5, 5, 10⟩, 3, 1000, true, true⟩ false true).isRunning = false ∧
    (AutonomousQuoteCommitter.intervalTick
        ⟨⟨5, 5, 10⟩, 3, 1000, true, true⟩ false true).hasInterval = false :=
  ⟨(failure_rate_throttle_stops ⟨⟨5, 5, 10⟩, 3, 1000, true, true⟩ true rfl rfl
      (by norm_num) (by norm_num) (by norm_num)).1,
   (failure_rate_throttle_stops ⟨⟨5, 5, 10⟩, 3, 1000, true, true⟩ true rfl rfl
      (by norm_num) (by norm_num) (by norm_num)).2.1⟩

/-! ## Claim C7 — category filtering -/

/-- C7: `getQuotesByCategory c` (both the `QuotesDatabase` method and the
`quotes.js` module function) returns exactly the quotes whose category is
`c`, in their original relative order (a sublist of the quote list), and
the empty list when no quote has category `c` — for every `c`, whether or
not it occurs in `getCategories`. -/
theorem quotes_by_category_spec (db : QuotesDatabase) (c : String) :
    (∀ q : Quote, q ∈ db.getQuotesByCategory c ↔ q ∈ db.quotes ∧ q.category = c) ∧
    (db.getQuotesByCategory c).Sublist db.quotes ∧
    ((∀ q ∈ db.quotes, q.category ≠ c) → db.getQuotesByCategory c = []) ∧
    (∀ q : Quote, q ∈ getQuotesByCategory c ↔ q ∈ quotes ∧ q.category = c) ∧
    (getQuotesByCategory c).Sublist quotes := by
  refine ⟨?_, ?_, ?_, ?_, ?_⟩
  · intro q
    simp [QuotesDatabase.getQuotesByCategory, List.mem_filter]
  · exact List.filter_sublist _
  · intro hnone
    simp only [QuotesDatabase.getQuotesByCategory, List.filter_eq_nil_iff]
    intro q hq
    simpa using hnone q hq
  · intro q
    simp [getQuotesByCategory, List.mem_filter]
  · exact List.filter_sublist _

/-- C7 witness: no quote of the stock database has category `poetry`, and
the filter accordingly returns the empty list. -/
theorem quotes_by_category_witness :
    QuotesDatabase.new.getQuotesByCategory "poetry" = [] :=
  (quotes_by_category_spec QuotesDatabase.new "poetry").2.2.1 (by decide)

/-! ## Claim C8 — immutability of the quote list -/

/-- C8 counterexample: `addQuote` is an operation of the quote source and
it does change the list's length — the claim that no operation changes
the list fails on it. -/
theorem addQuote_changes_length :
    (QuotesDatabase.new.addQuote "t" "a" "general").quotes.length ≠
      QuotesDatabase.new.quotes.length := by
  decide

/-- C8 (amended): `getNextQuote` never changes the quote list — it
mutates only the cursor and the used-set — but `addQuote` appends exactly
one new record (leaving all existing records unchanged), so the list is
immutable only under the selection/lookup operations, not under
`addQuote`. -/
theorem quote_list_mutation :
    (∀ (db : QuotesDatabase) (q : Quote) (db' : QuotesDatabase),
      db.getNextQuote = some (q, db') → db'.quotes = db.quotes) ∧
    (∀ (db : QuotesDatabase) (t a c : String),
      (db.addQuote t a c).quotes = db.quotes ++ [⟨t, a, c⟩]) := by
  constructor
  · intro db q db' h
    simp only [QuotesDatabase.getNextQuote] at h
    split at h
    · exact Option.noConfusion h
    · split at h
      · exact Option.noConfusion h
      · simp only [Option.some.injEq, Prod.mk.injEq] at h
        rw [← h.2]
        dsimp only
        split <;> rfl
  · intro db t a c
    rfl

/-- C8 witness: one `getNextQuote` call on a one-quote database leaves
the quote list untouched. -/
theorem quote_list_mutation_witness :
    (⟨[⟨"t", "a", "c"⟩], 0, [0]⟩ : QuotesDatabase).quotes =
      (mkDatabase [⟨"t", "a", "c"⟩]).quotes :=
  quote_list_mutation.1 (mkDatabase [⟨"t", "a", "c"⟩]) ⟨"t", "a", "c"⟩
    ⟨[⟨"t", "a", "c"⟩], 0, [0]⟩ (by decide)

/-! ## Claim C10 — termination of `getNextQuote` on reachable states -/

/-- When the current index is not yet used, the cursor loop exits
immediately. -/
theorem findUnused_not_mem (len : Nat) (used : List Nat) (fuel i : Nat)
    (hf : 0 < fuel) (h : i ∉ used) : findUnused len used fuel i = some i := by
  cases fuel with
  | zero => omega
  | succ fuel => simp [findUnused, h]

/-- If some index reachable from `i` within the fuel budget is unused,
the cursor loop finds an unused index below `len`. -/
theorem findUnused_success (len : Nat) (used : List Nat) :
    ∀ fuel i : Nat, i < len → (∃ k, k < fuel ∧ (i + k) % len ∉ used) →
      ∃ j, findUnused len used fuel i = some j ∧ j < len ∧ j ∉ used := by
  intro fuel
  induction fuel with
  | zero =>
    intro i _ ⟨k, hk, _⟩
    omega
  | succ fuel ih =>
    intro i hi ⟨k, hk, hkn⟩
    by_cases hmem : i ∈ used
    · have hlen : 0 < len := by omega
      have hk0 : k ≠ 0 := by
        intro h0
        rw [h0, Nat.add_zero, Nat.mod_eq_of_lt hi] at hkn
        exact hkn hmem
      obtain ⟨k', rfl⟩ : ∃ k', k = k' + 1 := ⟨k - 1, by omega⟩
      obtain ⟨j, hj, hjl, hjn⟩ := ih ((i + 1) % len) (Nat.mod_lt _ hlen)
        ⟨k', by omega, by rwa [Nat.mod_add_mod, show i + 1 + k' = i + (k' + 1) by omega]⟩
      exact ⟨j, by simpa [findUnused, hmem] using hj, hjl, hjn⟩
    · exact ⟨i, by simp [findUnused, hmem], hi, hmem⟩

/-- Pigeonhole: when fewer than `len` of the indices `0..len-1` are used,
some index of the form `(i + k) % len` with `k < len` is unused — the
`len` successive cursor positions cover every residue. -/
theorem exists_unused_index (len : Nat) (used : List Nat) (i : Nat)
    (hlen : 0 < len) (hnd : used.Nodup)
    (hcard : used.length < len) : ∃ k, k < len ∧ (i + k) % len ∉ used := by
  have himg : (Finset.range len).image (fun k => (i + k) % len) = Finset.range len := by
    apply Finset.eq_of_subset_of_card_le
    · intro x hx
      simp only [Finset.mem_image, Finset.mem_range] at hx ⊢
      obtain ⟨k, _, rfl⟩ := hx
      exact Nat.mod_lt _ hlen
    · rw [Finset.card_image_of_injOn]
      intro a ha b hb hab
      simp only [Finset.coe_range, Set.mem_Iio] at ha hb
      have hcong : a ≡ b [MOD len] :=
        Nat.ModEq.add_left_cancel' i (hab : (i + a) % len = (i + b) % len)
      have hmod : a % len = b % len := hcong
      rwa [Nat.mod_eq_of_lt ha, Nat.mod_eq_of_lt hb] at hmod
  have hcardfin : used.toFinset.card < (Finset.range len).card := by
    rw [List.toFinset_card_of_nodup hnd, Finset.card_range]
    exact hcard
  have hnotsub : ¬ Finset.range len ⊆ used.toFinset := by
    intro hsubset
    exact absurd (Finset.card_le_card hsubset) (by omega)
  obtain ⟨x, hxr, hxu⟩ := Finset.not_subset.mp hnotsub
  rw [← himg] at hxr
  simp only [Finset.mem_image, Finset.mem_range] at hxr
  obtain ⟨k, hk, rfl⟩ := hxr
  exact ⟨k, hk, fun hm => hxu (List.mem_toFinset.mpr hm)⟩

/-- Under the structural invariant, `getNextQuote` succeeds and its
result is fully determined: an unused index `i` below the list length is
selected, its quote is returned, `i` is added to the (possibly just
cleared) used-set, and the cursor moves to `(i + 1) % len`. -/
theorem getNextQuote_spec (db : QuotesDatabase) (h : db.Inv) :
    ∃ (i : Nat) (q : Quote),
      i < db.quotes.length ∧ db.quotes[i]? = some q ∧ i ∉ db.resetUsed ∧
      db.getNextQuote = some (q,
        { quotes := db.quotes, currentIndex := (i + 1) % db.quotes.length,
          usedIndices := i :: db.resetUsed }) := by
  obtain ⟨hne, hcur, hnd, hbound⟩ := h
  have hlen : 0 < db.quotes.length := List.length_pos.mpr hne
  by_cases hge : db.usedIndices.length ≥ db.quotes.length
  · have hru : db.resetUsed = [] := if_pos hge
    have hfind : findUnused db.quotes.length [] db.quotes.length 0 = some 0 :=
      findUnused_not_mem _ _ _ _ hlen (by simp)
    refine ⟨0, db.quotes[0], hlen, List.getElem?_eq_getElem hlen, by simp [hru], ?_⟩
    rw [hru]
    simp only [QuotesDatabase.getNextQuote]
    rw [if_pos hge]
    dsimp only
    rw [hfind]
    simp [List.getElem?_eq_getElem hlen]
  · have hru : db.resetUsed = db.usedIndices := if_neg hge
    obtain ⟨k, hk, hkn⟩ := exists_unused_index db.quotes.length db.usedIndices
      db.currentIndex hlen hnd (by omega)
    obtain ⟨j, hfind, hjl, hjn⟩ := findUnused_success db.quotes.length db.usedIndices
      db.quotes.length db.currentIndex hcur ⟨k, hk, hkn⟩
    refine ⟨j, db.quotes[j], hjl, List.getElem?_eq_getElem hjl, by rwa [hru], ?_⟩
    rw [hru]
    simp only [QuotesDatabase.getNextQuote]
    rw [if_neg hge]
    rw [hfind]
    simp [List.getElem?_eq_getElem hjl]

/-- The structural invariant holds for the constructor state and is
preserved by `getNextQuote`, hence holds for every reachable state. -/
theorem reachable_inv (db : QuotesDatabase) (h : db.Reachable) : db.Inv := by
  induction h with
  | start => exact ⟨by decide, by decide, List.nodup_nil, by decide⟩
  | @step db0 q db' hr heq ih =>
    obtain ⟨i, q', hi, hq, hni, hspec⟩ := getNextQuote_spec db0 ih
    rw [hspec] at heq
    obtain ⟨rfl, rfl⟩ : q' = q ∧
        ({ quotes := db0.quotes, currentIndex := (i + 1) % db0.quotes.length,
           usedIndices := i :: db0.resetUsed } : QuotesDatabase) = db' := by
      simpa using heq
    have hlen : 0 < db0.quotes.length := List.length_pos.mpr ih.1
    have hnd' : db0.resetUsed.Nodup := by
      unfold QuotesDatabase.resetUsed
      split
      · exact List.nodup_nil
      · exact ih.2.2.1
    have hbound' : ∀ j ∈ db0.resetUsed, j < db0.quotes.length := by
      unfold QuotesDatabase.resetUsed
      split
      · simp
      · exact ih.2.2.2
    refine ⟨ih.1, Nat.mod_lt _ hlen, List.nodup_cons.mpr ⟨hni, hnd'⟩, ?_⟩
    intro j hj
    rcases List.mem_cons.mp hj with rfl | hj'
    · exact hi
    · exact hbound' j hj'

/-- C10: on every reachable state of the round-robin source,
`getNextQuote` terminates — the cursor-advancing loop finds an unused
index because the used-set is cleared whenever its size reaches the list
length — returning an element of the (unchanged) quote list and marking
exactly one new index as used. -/
theorem getNextQuote_terminates (db : QuotesDatabase) (h : db.Reachable) :
    ∃ (q : Quote) (db' : QuotesDatabase),
      db.getNextQuote = some (q, db') ∧ q ∈ db.quotes ∧ db'.quotes = db.quotes ∧
      ∃ i : Nat, i < db.quotes.length ∧ db.quotes[i]? = some q ∧
        i ∉ db.resetUsed ∧ db'.usedIndices = i :: db.resetUsed ∧
        db'.currentIndex = (i + 1) % db.quotes.length := by
  obtain ⟨i, q, hi, hq, hni, hspec⟩ := getNextQuote_spec db (reachable_inv db h)
  exact ⟨q, _, hspec, List.getElem?_mem hq, rfl, i, hi, hq, hni, rfl, rfl⟩

/-- C10 witness: `getNextQuote` succeeds on the constructor state. -/
theorem getNextQuote_terminates_witness :
    ∃ (q : Quote) (db' : QuotesDatabase),
      QuotesDatabase.new.getNextQuote = some (q, db') ∧
      q ∈ QuotesDatabase.new.quotes ∧ db'.quotes = QuotesDatabase.new.quotes ∧
      ∃ i : Nat, i < QuotesDatabase.new.quotes.length ∧
        QuotesDatabase.new.quotes[i]? = some q ∧
        i ∉ QuotesDatabase.new.resetUsed ∧
        db'.usedIndices = i :: QuotesDatabase.new.resetUsed ∧
        db'.currentIndex = (i + 1) % QuotesDatabase.new.quotes.length :=
  getNextQuote_terminates QuotesDatabase.new QuotesDatabase.Reachable.start

/-! ## Claim C1 — round-robin full pass -/

/-- Trace of a fresh pass: starting from cursor `j` (mod the length) with
used-set `{0, …, j-1}`, the next `k` calls return the quotes at indices
`j, …, j+k-1` in order and leave the cursor at `(j+k) % len` with used-set
`{0, …, j+k-1}`, as long as `j + k` stays within one pass. -/
theorem runNext_trace (qs : List Quote) (hlen : 0 < qs.length) :
    ∀ k j : Nat, j + k ≤ qs.length →
      runNext ⟨qs, j % qs.length, (List.range j).reverse⟩ k =
        some ((qs.drop j).take k,
          ⟨qs, (j + k) % qs.length, (List.range (j + k)).reverse⟩) := by
  intro k
  induction k with
  | zero =>
    intro j hj
    simp [runNext]
  | succ k ih =>
    intro j hj
    have hjlen : j < qs.length := by omega
    have hcur : j % qs.length = j := Nat.mod_eq_of_lt hjlen
    have hgn : (⟨qs, j % qs.length, (List.range j).reverse⟩ :
        QuotesDatabase).getNextQuote =
        some (qs[j], ⟨qs, (j + 1) % qs.length, (List.range (j + 1)).reverse⟩) := by
      simp only [QuotesDatabase.getNextQuote]
      rw [if_neg (by simp only [List.length_reverse, List.length_range, ge_iff_le]; omega)]
      dsimp only
      rw [hcur, findUnused_not_mem _ _ _ _ hlen (by simp)]
      simp [List.getElem?_eq_getElem hjlen, List.range_succ]
    simp only [runNext, hgn, Option.some_bind]
    rw [ih (j + 1) (by omega)]
    have hadd : j + 1 + k = j + (k + 1) := by omega
    simp only [hadd, Option.map_some', List.drop_eq_getElem_cons hjlen, List.take_succ_cons]

/-- Splitting a run of `m + n` calls into a run of `m` and a run of `n`. -/
theorem runNext_add (db : QuotesDatabase) (m n : Nat) :
    runNext db (m + n) = (runNext db m).bind fun r =>
      (runNext r.2 n).map fun r2 => (r.1 ++ r2.1, r2.2) := by
  induction m generalizing db with
  | zero =>
    rw [Nat.zero_add]
    cases h : runNext db n with
    | none => simp [runNext, h]
    | some r => simp [runNext, h]
  | succ m ih =>
    rw [show m + 1 + n = (m + n) + 1 from by omega]
    cases hdb : db.getNextQuote with
    | none => simp [runNext, hdb]
    | some p =>
      simp only [runNext, hdb, Option.some_bind, ih]
      cases hm : runNext p.2 m with
      | none => simp [hm]
      | some r =>
        cases hn : runNext r.2 n with
        | none => simp [hm, hn]
        | some r2 => simp [hm, hn]

/-- C1: for any non-empty quote list, the first `N = length` calls of
`getNextQuote` starting from the constructor state return exactly the
full list in its original order — a permutation of the list with no
repeats — and call `N + 1` begins a new pass by returning the first quote
again. -/
theorem round_robin_full_pass (qs : List Quote) (h : qs ≠ []) :
    (runNext (mkDatabase qs) qs.length).map Prod.fst = some qs ∧
    (runNext (mkDatabase qs) (qs.length + 1)).map Prod.fst =
      some (qs ++ [qs.head h]) := by
  have hlen : 0 < qs.length := List.length_pos.mpr h
  have h0 : mkDatabase qs = ⟨qs, 0 % qs.length, (List.range 0).reverse⟩ := by
    simp [mkDatabase]
  have htrace := runNext_trace qs hlen qs.length 0 (by omega)
  rw [Nat.zero_add] at htrace
  rw [Nat.mod_self] at htrace
  have hnext : (⟨qs, 0, (List.range qs.length).reverse⟩ :
      QuotesDatabase).getNextQuote =
      some (qs.head h, ⟨qs, (0 + 1) % qs.length, [0]⟩) := by
    simp only [QuotesDatabase.getNextQuote]
    rw [if_pos (by simp)]
    dsimp only
    rw [findUnused_not_mem _ _ _ _ hlen (by simp)]
    simp [List.getElem?_eq_getElem hlen, List.head_eq_getElem_zero]
  constructor
  · rw [h0, htrace]
    simp
  · rw [h0, runNext_add _ qs.length 1, htrace]
    simp [runNext, hnext]

/-- C1 witness: a database of three quotes `A`, `B`, `C` returns
`A, B, C, A` over four sequential calls. -/
theorem round_robin_full_pass_witness :
    (runNext (mkDatabase [⟨"A", "a", "c"⟩, ⟨"B", "b", "c"⟩, ⟨"C", "c", "c"⟩]) 4).map
        Prod.fst =
      some [⟨"A", "a", "c"⟩, ⟨"B", "b", "c"⟩, ⟨"C", "c", "c"⟩, ⟨"A", "a", "c"⟩] := by
  have hrr := (round_robin_full_pass
    [⟨"A", "a", "c"⟩, ⟨"B", "b", "c"⟩, ⟨"C", "c", "c"⟩] (by decide)).2
  simpa using hrr
